import Mathlib

/-!
Shallow embedding of the ExtractFeature repository
(`extractfeature/extractor.py`, `extractfeature/config.py`,
`extractfeature/utils/utils.py`) and proofs of the specification claims.

A pandas DataFrame is modelled as an ordered list of named columns, each
column an ordered list of cells; a cell is `Option Value` with `none`
standing for NaN / missing.
-/

namespace ExtractFeature

/-- A scalar cell value: pandas object cells hold strings, ints or booleans
in this program. -/
inductive Value
  | str (s : String)
  | int (n : Int)
  | bool (b : Bool)
  deriving DecidableEq, Repr

/-- A DataFrame cell: `none` is NaN / missing. -/
abbrev Cell := Option Value

/-- A DataFrame: ordered labelled columns of equal intent length. -/
structure Table where
  cols : List (String × List Cell)
  deriving DecidableEq, Repr

/-- Column lookup, `df[name]`; `none` models the KeyError on a missing
column label. -/
def Table.getCol? (t : Table) (n : String) : Option (List Cell) :=
  (t.cols.find? (fun p => p.1 = n)).map Prod.snd

/-- Column assignment, `df[name] = v`: overwrite the column in place when
the label exists, else append a new column at the end. -/
def Table.setCol (t : Table) (n : String) (v : List Cell) : Table :=
  if t.cols.any (fun p => p.1 = n) then
    ⟨t.cols.map (fun p => if p.1 = n then (n, v) else p)⟩
  else
    ⟨t.cols ++ [(n, v)]⟩

/-- One cell of `df.replace(["nan", "NULL"], np.nan)`: a cell equal to the
literal string "nan" or "NULL" becomes missing, all other cells are kept. -/
def replaceCell (c : Cell) : Cell :=
  match c with
  | some (Value.str s) => if s = "nan" ∨ s = "NULL" then none else some (Value.str s)
  | c => c

/-- `df.replace(["nan", "NULL"], np.nan, inplace=True)`: sentinel
replacement over every cell of every column. -/
def Table.replaceAll (t : Table) : Table :=
  ⟨t.cols.map (fun p => (p.1, p.2.map replaceCell))⟩

/-- One cell of `df["phone"].notnull()`. -/
def hasPhoneCell (c : Cell) : Cell :=
  some (Value.bool c.isSome)

/-- Python single-character `split`: `splitChar sep l` cuts `l` at every
occurrence of `sep`, keeping empty segments, and never returns `[]`. -/
def splitChar (sep : Char) : List Char → List (List Char)
  | [] => [[]]
  | c :: rest =>
    let r := splitChar sep rest
    if c = sep then [] :: r
    else
      match r with
      | [] => [[c]]
      | h :: t => (c :: h) :: t

/-- One cell of `df["email"].str.split("@").str[-1]`: missing and
non-string cells give missing; a string gives the last segment of its
split on the `@` character. -/
def emailDomainCell (c : Cell) : Cell :=
  match c with
  | some (Value.str s) =>
    some (Value.str (String.mk ((splitChar '@' s.data).getLastD [])))
  | _ => none

/-- One cell of `df["first_name"].str.len()` (also used for last_name):
missing and non-string cells give missing, a string gives its length. -/
def strLenCell (c : Cell) : Cell :=
  match c with
  | some (Value.str s) => some (Value.int s.length)
  | _ => none

/-- Python `str.upper` on the ASCII strings this program handles:
uppercase every character. -/
def pyUpper (s : String) : String :=
  String.mk (s.data.map Char.toUpper)

/-- One cell of `df["state"].str.upper() == "NY"`: comparing with a
missing (or non-string) entry yields `false`, never missing. -/
def isInNYCell (c : Cell) : Cell :=
  match c with
  | some (Value.str s) => some (Value.bool (pyUpper s = "NY"))
  | _ => some (Value.bool false)

/-- One guarded feature step of `extract_features`: when `name` is among
the requested features, read the source column (failing like the KeyError
when it is absent) and assign the mapped column; otherwise leave the table
unchanged. -/
def stepFeature (name src : String) (f : Cell → Cell)
    (feats : List String) (df : Table) : Option Table :=
  if feats.contains name then
    match df.getCol? src with
    | some col => some (df.setCol name (col.map f))
    | none => none
  else some df

/-- The five guarded feature steps of `extract_features`, in source
order, applied after sentinel replacement. -/
def deriveSteps (feats : List String) (df : Table) : Option Table :=
  (stepFeature "HasPhone" "phone" hasPhoneCell feats df).bind fun d1 =>
  (stepFeature "EmailDomain" "email" emailDomainCell feats d1).bind fun d2 =>
  (stepFeature "FirstNameLength" "first_name" strLenCell feats d2).bind fun d3 =>
  (stepFeature "LastNameLength" "last_name" strLenCell feats d3).bind fun d4 =>
  stepFeature "IsInNY" "state" isInNYCell feats d4

/-- `FeatureExtractor.extract_features(df)`: sentinel replacement over the
whole table, then the five guarded feature assignments; `self.features` is
the `feats` argument. -/
def extract_features (feats : List String) (df : Table) : Option Table :=
  deriveSteps feats df.replaceAll

/-- The five fixed feature names, in evaluation order. -/
def fiveFeatureNames : List String :=
  ["HasPhone", "EmailDomain", "FirstNameLength", "LastNameLength", "IsInNY"]

/-! Configuration model (`config.py`, `utils/utils.py`). -/

/-- A YAML scalar or nested value as loaded into the configuration
mapping. -/
inductive ConfigVal
  | str (s : String)
  | int (n : Int)
  | bool (b : Bool)
  | list (xs : List ConfigVal)

/-- A loaded configuration: a mapping from keys to values, modelled as an
association list. -/
abbrev ConfigMap := List (String × ConfigVal)

/-- `key in config` on a Python dict: the key occurs among the mapping's
keys. -/
def hasKey (c : ConfigMap) (k : String) : Bool :=
  c.any (fun p => p.1 = k)

/-- `validate_config(config)` from `utils/utils.py`: all required keys
(`required_keys = ["fields"]`) are present in the mapping. -/
def validate_config (config : ConfigMap) : Bool :=
  ["fields"].all (fun key => hasKey config key)

/-- `Config.__init__` after `load_config` has produced the mapping: raise
`ValueError("Invalid configuration file.")` when validation fails,
otherwise the object holds the mapping. -/
def Config.init (config : ConfigMap) : Except String ConfigMap :=
  if validate_config config then Except.ok config
  else Except.error "Invalid configuration file."

/-! CSV loading model (`FeatureExtractor.load_csv`). The claims under
proof only involve text-typed fields, so cells read from a file are
string cells. -/

/-- The pandas error raised by `read_csv` on input with no parsable
content. -/
inductive PdError
  | emptyDataError (msg : String)
  deriving DecidableEq, Repr

/-- `pd.read_csv(csv_path, usecols=field_names)` over the raw file
content: an input with no non-empty line raises
`EmptyDataError("No columns to parse from file")`; otherwise the first
non-empty line is the comma-separated header and each later line a row,
restricted to the columns named in `usecols`. -/
def read_csv (content : String) (usecols : List String) :
    Except PdError Table :=
  match ((splitChar '\n' content.data).map String.mk).filter
      (fun l => l ≠ "") with
  | [] => Except.error (PdError.emptyDataError "No columns to parse from file")
  | header :: rows =>
    let names := (splitChar ',' header.data).map String.mk
    let cells := rows.map (fun r => (splitChar ',' r.data).map String.mk)
    let pick := (names.enum.filter (fun p => usecols.contains p.2))
    Except.ok ⟨pick.map (fun p =>
      (p.2, cells.map (fun r => some (Value.str (r.getD p.1 "")))))⟩

/-- `FeatureExtractor.convert_data_types(df, field_types)` restricted to
text-typed fields: `astype(str)` on an object column of strings leaves the
strings unchanged, so each listed field's column is reassigned to itself. -/
def convert_data_types (df : Table) (field_names : List String) : Table :=
  field_names.foldl (fun d f =>
    match d.getCol? f with
    | some col => d.setCol f col
    | none => d) df

/-- `FeatureExtractor.load_csv(csv_path, field_names, field_types)`: call
`read_csv` and convert types; an `EmptyDataError` is caught and re-raised
as `ValueError(f"Error reading CSV file: {e}")`, everything else is
returned. -/
def load_csv (content : String) (field_names : List String) :
    Except String Table :=
  match read_csv content field_names with
  | Except.ok df => Except.ok (convert_data_types df field_names)
  | Except.error (PdError.emptyDataError m) =>
    Except.error ("Error reading CSV file: " ++ m)

/-! Basic lemmas about the table operations. -/

theorem find?_map_set (l : List (String × List Cell)) (n : String) (v : List Cell)
    (h : l.any (fun p => p.1 = n) = true) :
    (l.map (fun p => if p.1 = n then (n, v) else p)).find?
      (fun p => p.1 = n) = some (n, v) := by
  induction l with
  | nil => simp at h
  | cons a l ih =>
    by_cases ha : a.1 = n
    · simp [List.find?, ha]
    · simp only [List.any_cons, Bool.or_eq_true, decide_eq_true_eq] at h
      rcases h with h | h
      · exact absurd h ha
      · simp [List.find?, ha, ih h]

theorem find?_map_set_ne (l : List (String × List Cell)) (n m : String)
    (v : List Cell) (h : m ≠ n) :
    (l.map (fun p => if p.1 = n then (n, v) else p)).find?
      (fun p => p.1 = m) = l.find? (fun p => p.1 = m) := by
  induction l with
  | nil => rfl
  | cons a l ih =>
    by_cases ha : a.1 = n
    · have ham : ¬ a.1 = m := fun hc => h (hc ▸ ha ▸ rfl)
      simp [List.find?, ha, Ne.symm h, ham, ih]
    · by_cases ham : a.1 = m
      · simp [List.find?, ha, ham, h]
      · simp [List.find?, ha, ham, ih]

theorem getCol?_setCol_self (t : Table) (n : String) (v : List Cell) :
    (t.setCol n v).getCol? n = some v := by
  unfold Table.setCol
  by_cases h : t.cols.any (fun p => p.1 = n) = true
  · rw [if_pos h]
    unfold Table.getCol?
    rw [find?_map_set t.cols n v h]
    rfl
  · rw [if_neg h]
    unfold Table.getCol?
    rw [List.find?_append]
    have hn : t.cols.find? (fun p => decide (p.1 = n)) = none := by
      rw [List.find?_eq_none]
      intro x hx hpx
      exact h (List.any_eq_true.mpr ⟨x, hx, hpx⟩)
    simp [hn, List.find?]

theorem getCol?_setCol_ne (t : Table) (n m : String) (v : List Cell)
    (h : m ≠ n) :
    (t.setCol n v).getCol? m = t.getCol? m := by
  unfold Table.setCol
  by_cases hany : t.cols.any (fun p => p.1 = n) = true
  · rw [if_pos hany]
    unfold Table.getCol?
    rw [find?_map_set_ne t.cols n m v h]
  · rw [if_neg hany]
    unfold Table.getCol?
    rw [List.find?_append]
    cases hf : t.cols.find? (fun p => decide (p.1 = m)) with
    | some p => rfl
    | none => simp [List.find?, Ne.symm h]

theorem find?_map_replace (l : List (String × List Cell)) (n : String) :
    (l.map (fun p => (p.1, p.2.map replaceCell))).find? (fun p => p.1 = n)
      = (l.find? (fun p => p.1 = n)).map
          (fun p => (p.1, p.2.map replaceCell)) := by
  induction l with
  | nil => rfl
  | cons a l ih =>
    by_cases ha : a.1 = n
    · simp [List.find?, ha]
    · simp [List.find?, ha, ih]

theorem getCol?_replaceAll (t : Table) (n : String) :
    t.replaceAll.getCol? n = (t.getCol? n).map (List.map replaceCell) := by
  unfold Table.replaceAll Table.getCol?
  rw [find?_map_replace]
  cases t.cols.find? (fun p => p.1 = n) <;> rfl

theorem replaceCell_idem (c : Cell) :
    replaceCell (replaceCell c) = replaceCell c := by
  rcases c with _ | v
  · rfl
  · rcases v with s | n | b
    · by_cases h : s = "nan" ∨ s = "NULL" <;> simp [replaceCell, h]
    · rfl
    · rfl

/-! Lemmas about single feature steps. -/

theorem stepFeature_not_mem (name src : String) (f : Cell → Cell)
    (feats : List String) (df : Table) (h : feats.contains name = false) :
    stepFeature name src f feats df = some df := by
  unfold stepFeature
  rw [h]
  rfl

theorem stepFeature_mem (name src : String) (f : Cell → Cell)
    (feats : List String) (df : Table) (col : List Cell)
    (h : feats.contains name = true) (hc : df.getCol? src = some col) :
    stepFeature name src f feats df = some (df.setCol name (col.map f)) := by
  unfold stepFeature
  rw [h, hc]
  rfl

theorem stepFeature_getCol_ne (name src : String) (f : Cell → Cell)
    (feats : List String) (df df' : Table)
    (h : stepFeature name src f feats df = some df')
    (m : String) (hm : m ≠ name) :
    df'.getCol? m = df.getCol? m := by
  unfold stepFeature at h
  split at h
  · cases hc : df.getCol? src <;> rw [hc] at h
    · cases h
    · cases h
      exact getCol?_setCol_ne _ _ _ _ hm
  · cases h
    rfl

theorem stepFeature_inv (name src : String) (f : Cell → Cell)
    (feats : List String) (df df' : Table)
    (h : stepFeature name src f feats df = some df')
    (hmem : feats.contains name = true) :
    ∃ col, df.getCol? src = some col ∧ df' = df.setCol name (col.map f) := by
  unfold stepFeature at h
  rw [if_pos hmem] at h
  cases hc : df.getCol? src <;> rw [hc] at h
  · cases h
  · cases h
    exact ⟨_, rfl, rfl⟩

theorem stepFeature_congr (name src : String) (f : Cell → Cell)
    (feats feats' : List String) (df : Table)
    (h : feats.contains name = feats'.contains name) :
    stepFeature name src f feats df = stepFeature name src f feats' df := by
  unfold stepFeature
  rw [h]

theorem stepFeature_total (name src : String) (f : Cell → Cell)
    (feats : List String) (df : Table)
    (h : feats.contains name = true → (df.getCol? src).isSome = true) :
    ∃ df', stepFeature name src f feats df = some df' := by
  cases hc : feats.contains name with
  | false => exact ⟨df, stepFeature_not_mem _ _ _ _ _ hc⟩
  | true =>
    rcases Option.isSome_iff_exists.mp (h hc) with ⟨col, hcol⟩
    exact ⟨_, stepFeature_mem _ _ _ _ _ _ hc hcol⟩

/-! Lemmas about the five-step derivation chain. -/

theorem deriveSteps_chain (feats : List String) (df df' : Table)
    (h : deriveSteps feats df = some df') :
    ∃ d1 d2 d3 d4,
      stepFeature "HasPhone" "phone" hasPhoneCell feats df = some d1 ∧
      stepFeature "EmailDomain" "email" emailDomainCell feats d1 = some d2 ∧
      stepFeature "FirstNameLength" "first_name" strLenCell feats d2 = some d3 ∧
      stepFeature "LastNameLength" "last_name" strLenCell feats d3 = some d4 ∧
      stepFeature "IsInNY" "state" isInNYCell feats d4 = some df' := by
  unfold deriveSteps at h
  rcases Option.bind_eq_some.mp h with ⟨d1, h1, h⟩
  rcases Option.bind_eq_some.mp h with ⟨d2, h2, h⟩
  rcases Option.bind_eq_some.mp h with ⟨d3, h3, h⟩
  rcases Option.bind_eq_some.mp h with ⟨d4, h4, h5⟩
  exact ⟨d1, d2, d3, d4, h1, h2, h3, h4, h5⟩

theorem deriveSteps_of_chain (feats : List String) (df d1 d2 d3 d4 d5 : Table)
    (h1 : stepFeature "HasPhone" "phone" hasPhoneCell feats df = some d1)
    (h2 : stepFeature "EmailDomain" "email" emailDomainCell feats d1 = some d2)
    (h3 : stepFeature "FirstNameLength" "first_name" strLenCell feats d2 = some d3)
    (h4 : stepFeature "LastNameLength" "last_name" strLenCell feats d3 = some d4)
    (h5 : stepFeature "IsInNY" "state" isInNYCell feats d4 = some d5) :
    deriveSteps feats df = some d5 := by
  unfold deriveSteps
  rw [h1]
  show (stepFeature "EmailDomain" "email" emailDomainCell feats d1).bind _ = _
  rw [h2]
  show (stepFeature "FirstNameLength" "first_name" strLenCell feats d2).bind _ = _
  rw [h3]
  show (stepFeature "LastNameLength" "last_name" strLenCell feats d3).bind _ = _
  rw [h4]
  exact h5

/-- Columns whose label is not one of the five feature names pass through
the derivation chain unchanged. -/
theorem deriveSteps_getCol_other (feats : List String) (df df' : Table)
    (h : deriveSteps feats df = some df') (m : String)
    (hm : m ∉ fiveFeatureNames) :
    df'.getCol? m = df.getCol? m := by
  simp only [fiveFeatureNames, List.mem_cons, List.not_mem_nil, or_false,
    not_or] at hm
  rcases deriveSteps_chain feats df df' h with ⟨d1, d2, d3, d4, h1, h2, h3, h4, h5⟩
  rw [stepFeature_getCol_ne _ _ _ _ _ _ h5 _ hm.2.2.2.2,
    stepFeature_getCol_ne _ _ _ _ _ _ h4 _ hm.2.2.2.1,
    stepFeature_getCol_ne _ _ _ _ _ _ h3 _ hm.2.2.1,
    stepFeature_getCol_ne _ _ _ _ _ _ h2 _ hm.2.1,
    stepFeature_getCol_ne _ _ _ _ _ _ h1 _ hm.1]

theorem deriveSteps_hasPhone_col (feats : List String) (df df' : Table)
    (h : deriveSteps feats df = some df')
    (hmem : feats.contains "HasPhone" = true) :
    ∃ col, df.getCol? "phone" = some col ∧
      df'.getCol? "HasPhone" = some (col.map hasPhoneCell) := by
  rcases deriveSteps_chain feats df df' h with ⟨d1, d2, d3, d4, h1, h2, h3, h4, h5⟩
  rcases stepFeature_inv _ _ _ _ _ _ h1 hmem with ⟨col, hcol, rfl⟩
  refine ⟨col, hcol, ?_⟩
  rw [stepFeature_getCol_ne _ _ _ _ _ _ h5 _ (by decide),
    stepFeature_getCol_ne _ _ _ _ _ _ h4 _ (by decide),
    stepFeature_getCol_ne _ _ _ _ _ _ h3 _ (by decide),
    stepFeature_getCol_ne _ _ _ _ _ _ h2 _ (by decide),
    getCol?_setCol_self]

theorem deriveSteps_emailDomain_col (feats : List String) (df df' : Table)
    (h : deriveSteps feats df = some df')
    (hmem : feats.contains "EmailDomain" = true) :
    ∃ col, df.getCol? "email" = some col ∧
      df'.getCol? "EmailDomain" = some (col.map emailDomainCell) := by
  rcases deriveSteps_chain feats df df' h with ⟨d1, d2, d3, d4, h1, h2, h3, h4, h5⟩
  rcases stepFeature_inv _ _ _ _ _ _ h2 hmem with ⟨col, hcol, rfl⟩
  rw [stepFeature_getCol_ne _ _ _ _ _ _ h1 _ (by decide)] at hcol
  refine ⟨col, hcol, ?_⟩
  rw [stepFeature_getCol_ne _ _ _ _ _ _ h5 _ (by decide),
    stepFeature_getCol_ne _ _ _ _ _ _ h4 _ (by decide),
    stepFeature_getCol_ne _ _ _ _ _ _ h3 _ (by decide),
    getCol?_setCol_self]

theorem deriveSteps_firstNameLength_col (feats : List String) (df df' : Table)
    (h : deriveSteps feats df = some df')
    (hmem : feats.contains "FirstNameLength" = true) :
    ∃ col, df.getCol? "first_name" = some col ∧
      df'.getCol? "FirstNameLength" = some (col.map strLenCell) := by
  rcases deriveSteps_chain feats df df' h with ⟨d1, d2, d3, d4, h1, h2, h3, h4, h5⟩
  rcases stepFeature_inv _ _ _ _ _ _ h3 hmem with ⟨col, hcol, rfl⟩
  rw [stepFeature_getCol_ne _ _ _ _ _ _ h2 _ (by decide),
    stepFeature_getCol_ne _ _ _ _ _ _ h1 _ (by decide)] at hcol
  refine ⟨col, hcol, ?_⟩
  rw [stepFeature_getCol_ne _ _ _ _ _ _ h5 _ (by decide),
    stepFeature_getCol_ne _ _ _ _ _ _ h4 _ (by decide),
    getCol?_setCol_self]

theorem deriveSteps_lastNameLength_col (feats : List String) (df df' : Table)
    (h : deriveSteps feats df = some df')
    (hmem : feats.contains "LastNameLength" = true) :
    ∃ col, df.getCol? "last_name" = some col ∧
      df'.getCol? "LastNameLength" = some (col.map strLenCell) := by
  rcases deriveSteps_chain feats df df' h with ⟨d1, d2, d3, d4, h1, h2, h3, h4, h5⟩
  rcases stepFeature_inv _ _ _ _ _ _ h4 hmem with ⟨col, hcol, rfl⟩
  rw [stepFeature_getCol_ne _ _ _ _ _ _ h3 _ (by decide),
    stepFeature_getCol_ne _ _ _ _ _ _ h2 _ (by decide),
    stepFeature_getCol_ne _ _ _ _ _ _ h1 _ (by decide)] at hcol
  refine ⟨col, hcol, ?_⟩
  rw [stepFeature_getCol_ne _ _ _ _ _ _ h5 _ (by decide),
    getCol?_setCol_self]

theorem deriveSteps_isInNY_col (feats : List String) (df df' : Table)
    (h : deriveSteps feats df = some df')
    (hmem : feats.contains "IsInNY" = true) :
    ∃ col, df.getCol? "state" = some col ∧
      df'.getCol? "IsInNY" = some (col.map isInNYCell) := by
  rcases deriveSteps_chain feats df df' h with ⟨d1, d2, d3, d4, h1, h2, h3, h4, h5⟩
  rcases stepFeature_inv _ _ _ _ _ _ h5 hmem with ⟨col, hcol, rfl⟩
  rw [stepFeature_getCol_ne _ _ _ _ _ _ h4 _ (by decide),
    stepFeature_getCol_ne _ _ _ _ _ _ h3 _ (by decide),
    stepFeature_getCol_ne _ _ _ _ _ _ h2 _ (by decide),
    stepFeature_getCol_ne _ _ _ _ _ _ h1 _ (by decide)] at hcol
  exact ⟨col, hcol, getCol?_setCol_self _ _ _⟩

/-- The derivation chain succeeds whenever every requested feature's
source column is present. -/
theorem deriveSteps_total (feats : List String) (df : Table)
    (h1 : feats.contains "HasPhone" = true →
      (df.getCol? "phone").isSome = true)
    (h2 : feats.contains "EmailDomain" = true →
      (df.getCol? "email").isSome = true)
    (h3 : feats.contains "FirstNameLength" = true →
      (df.getCol? "first_name").isSome = true)
    (h4 : feats.contains "LastNameLength" = true →
      (df.getCol? "last_name").isSome = true)
    (h5 : feats.contains "IsInNY" = true →
      (df.getCol? "state").isSome = true) :
    ∃ df', deriveSteps feats df = some df' := by
  rcases stepFeature_total "HasPhone" "phone" hasPhoneCell feats df h1 with
    ⟨d1, hd1⟩
  rcases stepFeature_total "EmailDomain" "email" emailDomainCell feats d1
    (fun hc => by
      rw [stepFeature_getCol_ne _ _ _ _ _ _ hd1 _ (by decide)]
      exact h2 hc) with ⟨d2, hd2⟩
  rcases stepFeature_total "FirstNameLength" "first_name" strLenCell feats d2
    (fun hc => by
      rw [stepFeature_getCol_ne _ _ _ _ _ _ hd2 _ (by decide),
        stepFeature_getCol_ne _ _ _ _ _ _ hd1 _ (by decide)]
      exact h3 hc) with ⟨d3, hd3⟩
  rcases stepFeature_total "LastNameLength" "last_name" strLenCell feats d3
    (fun hc => by
      rw [stepFeature_getCol_ne _ _ _ _ _ _ hd3 _ (by decide),
        stepFeature_getCol_ne _ _ _ _ _ _ hd2 _ (by decide),
        stepFeature_getCol_ne _ _ _ _ _ _ hd1 _ (by decide)]
      exact h4 hc) with ⟨d4, hd4⟩
  rcases stepFeature_total "IsInNY" "state" isInNYCell feats d4
    (fun hc => by
      rw [stepFeature_getCol_ne _ _ _ _ _ _ hd4 _ (by decide),
        stepFeature_getCol_ne _ _ _ _ _ _ hd3 _ (by decide),
        stepFeature_getCol_ne _ _ _ _ _ _ hd2 _ (by decide),
        stepFeature_getCol_ne _ _ _ _ _ _ hd1 _ (by decide)]
      exact h5 hc) with ⟨d5, hd5⟩
  exact ⟨d5, deriveSteps_of_chain feats df d1 d2 d3 d4 d5 hd1 hd2 hd3 hd4 hd5⟩

/-- When none of the five feature names is requested, the derivation
chain returns its input unchanged. -/
theorem deriveSteps_none (feats : List String) (df : Table)
    (h : ∀ n ∈ fiveFeatureNames, feats.contains n = false) :
    deriveSteps feats df = some df :=
  deriveSteps_of_chain feats df df df df df df
    (stepFeature_not_mem _ _ _ _ _ (h _ (by decide)))
    (stepFeature_not_mem _ _ _ _ _ (h _ (by decide)))
    (stepFeature_not_mem _ _ _ _ _ (h _ (by decide)))
    (stepFeature_not_mem _ _ _ _ _ (h _ (by decide)))
    (stepFeature_not_mem _ _ _ _ _ (h _ (by decide)))

/-- The derivation chain depends on the requested-features list only
through membership of the five fixed names. -/
theorem deriveSteps_congr (feats feats' : List String) (df : Table)
    (h : ∀ n ∈ fiveFeatureNames, feats.contains n = feats'.contains n) :
    deriveSteps feats df = deriveSteps feats' df := by
  unfold deriveSteps
  rw [stepFeature_congr "HasPhone" "phone" hasPhoneCell feats feats' df
    (h _ (by decide))]
  apply congrArg
  funext d1
  rw [stepFeature_congr "EmailDomain" "email" emailDomainCell feats feats' d1
    (h _ (by decide))]
  apply congrArg
  funext d2
  rw [stepFeature_congr "FirstNameLength" "first_name" strLenCell feats
    feats' d2 (h _ (by decide))]
  apply congrArg
  funext d3
  rw [stepFeature_congr "LastNameLength" "last_name" strLenCell feats
    feats' d3 (h _ (by decide))]
  apply congrArg
  funext d4
  exact stepFeature_congr "IsInNY" "state" isInNYCell feats feats' d4
    (h _ (by decide))

/-! Auxiliary facts used by the claims. -/

theorem map_replaceCell_idem (col : List Cell) :
    (col.map replaceCell).map replaceCell = col.map replaceCell := by
  rw [List.map_map]
  exact List.map_congr_left (fun c _ => replaceCell_idem c)

theorem splitChar_not_mem (sep : Char) (l : List Char) (h : sep ∉ l) :
    splitChar sep l = [l] := by
  induction l with
  | nil => rfl
  | cons c rest ih =>
    simp only [List.mem_cons, not_or] at h
    simp only [splitChar, ih h.2]
    rw [if_neg (fun hc => h.1 hc.symm)]

theorem contains_filter_of_pred (feats : List String) (p : String → Bool)
    (n : String) (hn : p n = true) :
    (feats.filter p).contains n = feats.contains n := by
  induction feats with
  | nil => rfl
  | cons a l ih =>
    by_cases ha : p a = true
    · simp only [List.filter_cons, ha, if_true, List.contains_cons, ih]
    · have ha' : p a = false := by
        rcases Bool.eq_false_or_eq_true (p a) with hb | hb
        · exact absurd hb ha
        · exact hb
      have hne : (n == a) = false := by
        rcases Bool.eq_false_or_eq_true (n == a) with hb | hb
        · exact absurd (beq_iff_eq.mp hb ▸ hn) ha
        · exact hb
      simp only [List.filter_cons, ha', Bool.false_eq_true, if_false,
        List.contains_cons, hne, Bool.false_or, ih]

theorem hasKey_keys (c c' : ConfigMap)
    (h : c.map Prod.fst = c'.map Prod.fst) (k : String) :
    hasKey c k = hasKey c' k := by
  unfold hasKey
  have hk : ∀ d : ConfigMap,
      d.any (fun p => p.1 = k) = (d.map Prod.fst).any (fun s => s = k) := by
    intro d
    induction d with
    | nil => rfl
    | cons a l ih => simp only [List.any_cons, List.map_cons, ih]
  rw [hk c, hk c', h]

theorem validate_config_eq_hasKey (c : ConfigMap) :
    validate_config c = hasKey c "fields" := by
  unfold validate_config
  simp [List.all_cons]

/-! The claims. -/

/-- C1: when the EmailDomain feature is requested, the derived column
holds, per row, the last segment of the (sentinel-normalized) email value
split on the literal `@`; a null email value gives null, a value with no
`@` gives the whole string unchanged, and "user@example.com" gives
"example.com". -/
theorem C1_email_domain (feats : List String) (df df' : Table)
    (col : List Cell)
    (hmem : "EmailDomain" ∈ feats)
    (h : extract_features feats df = some df')
    (hcol : df.getCol? "email" = some col) :
    df'.getCol? "EmailDomain"
        = some ((col.map replaceCell).map emailDomainCell)
    ∧ emailDomainCell none = none
    ∧ (∀ s : String, '@' ∉ s.data →
        emailDomainCell (some (Value.str s)) = some (Value.str s))
    ∧ emailDomainCell (some (Value.str "user@example.com"))
        = some (Value.str "example.com") := by
  unfold extract_features at h
  rcases deriveSteps_emailDomain_col feats df.replaceAll df' h
    (List.elem_eq_true_of_mem hmem) with ⟨colX, hcolX, hval⟩
  rw [getCol?_replaceAll, hcol] at hcolX
  simp only [Option.map_some'] at hcolX
  cases hcolX
  refine ⟨hval, rfl, ?_, by decide⟩
  intro s hs
  show some (Value.str (String.mk ((splitChar '@' s.data).getLastD [])))
    = some (Value.str s)
  rw [splitChar_not_mem '@' s.data hs]
  rfl

/-- Witness for C1 at a concrete one-column table. -/
theorem C1_email_domain_witness :
    (⟨[("email", [none, some (Value.str "user@example.com")]),
       ("EmailDomain", [none, some (Value.str "example.com")])]⟩ : Table).getCol?
        "EmailDomain"
      = some (([none, some (Value.str "user@example.com")].map
          replaceCell).map emailDomainCell) :=
  (C1_email_domain ["EmailDomain"]
    ⟨[("email", [none, some (Value.str "user@example.com")])]⟩
    ⟨[("email", [none, some (Value.str "user@example.com")]),
      ("EmailDomain", [none, some (Value.str "example.com")])]⟩
    [none, some (Value.str "user@example.com")]
    (by decide) (by decide) (by decide)).1

/-- C2: before any feature membership check, every cell of every column
equal to the literal string "nan" or "NULL" is replaced with the missing
marker; columns not named after one of the five features come out exactly
sentinel-replaced, whatever the requested features are. -/
theorem C2_sentinel_replacement (feats : List String) (df df' : Table)
    (m : String) (col : List Cell)
    (h : extract_features feats df = some df')
    (hm : m ∉ fiveFeatureNames)
    (hcol : df.getCol? m = some col) :
    df'.getCol? m = some (col.map replaceCell)
    ∧ replaceCell (some (Value.str "nan")) = none
    ∧ replaceCell (some (Value.str "NULL")) = none
    ∧ (∀ v : Value, (∀ s : String, v = Value.str s →
        s ≠ "nan" ∧ s ≠ "NULL") → replaceCell (some v) = some v)
    ∧ replaceCell none = none := by
  unfold extract_features at h
  refine ⟨?_, rfl, rfl, ?_, rfl⟩
  · rw [deriveSteps_getCol_other feats df.replaceAll df' h m hm,
      getCol?_replaceAll, hcol]
    rfl
  · intro v hv
    rcases v with s | n | b
    · rcases hv s rfl with ⟨h1, h2⟩
      show (if s = "nan" ∨ s = "NULL" then none else some (Value.str s))
        = some (Value.str s)
      rw [if_neg (fun hc => hc.elim h1 h2)]
    · rfl
    · rfl

/-- Witness for C2: with no features requested, a "nan" cell in an
unrelated column still becomes missing. -/
theorem C2_sentinel_replacement_witness :
    (⟨[("x", [none])]⟩ : Table).getCol? "x"
      = some ([some (Value.str "nan")].map replaceCell) :=
  (C2_sentinel_replacement [] ⟨[("x", [some (Value.str "nan")])]⟩
    ⟨[("x", [none])]⟩ "x" [some (Value.str "nan")]
    (by decide) (by decide) (by decide)).1

/-- C3: `validate_config` returns true iff the `fields` key is present;
the value under `fields` is never inspected (validation depends only on
the key list), so an empty-list `fields` value passes. -/
theorem C3_validate_fields_only (config : ConfigMap) :
    (validate_config config = true ↔ ∃ p ∈ config, p.1 = "fields")
    ∧ (∀ config' : ConfigMap,
        config.map Prod.fst = config'.map Prod.fst →
        validate_config config = validate_config config')
    ∧ validate_config [("fields", ConfigVal.list [])] = true := by
  refine ⟨?_, ?_, rfl⟩
  · rw [validate_config_eq_hasKey]
    unfold hasKey
    rw [List.any_eq_true]
    constructor
    · rintro ⟨p, hp, hd⟩
      exact ⟨p, hp, of_decide_eq_true hd⟩
    · rintro ⟨p, hp, hd⟩
      exact ⟨p, hp, decide_eq_true hd⟩
  · intro config' hkeys
    rw [validate_config_eq_hasKey, validate_config_eq_hasKey]
    exact hasKey_keys config config' hkeys "fields"

/-- Witness for C3: two configurations with the same keys but different
`fields` values validate alike. -/
theorem C3_validate_fields_only_witness :
    validate_config [("fields", ConfigVal.str "a")]
      = validate_config [("fields", ConfigVal.int 0)] :=
  (C3_validate_fields_only [("fields", ConfigVal.str "a")]).2.1
    [("fields", ConfigVal.int 0)] rfl

/-- C4 counterexample: a loaded configuration whose `fields` value is the
empty list passes validation, so construction succeeds instead of failing
with a validation fault as the claim states. -/
theorem C4_counterexample :
    Config.init [("fields", ConfigVal.list [])]
      = Except.ok [("fields", ConfigVal.list [])] := rfl

/-- C4 (amended): construction fails with the fixed validation error iff
the `fields` key is absent from the loaded configuration; mere presence of
the key (even with an empty value) makes construction succeed. -/
theorem C4_amended_fields_presence (config : ConfigMap) :
    (hasKey config "fields" = false →
      Config.init config = Except.error "Invalid configuration file.")
    ∧ (hasKey config "fields" = true →
      Config.init config = Except.ok config) := by
  constructor
  · intro hk
    unfold Config.init
    rw [validate_config_eq_hasKey, hk]
    rfl
  · intro hk
    unfold Config.init
    rw [validate_config_eq_hasKey, hk]
    rfl

/-- Witness for the amended C4: a configuration without `fields` makes
construction fail. -/
theorem C4_amended_fields_presence_witness :
    Config.init [("debug", ConfigVal.bool true)]
      = Except.error "Invalid configuration file." :=
  (C4_amended_fields_presence [("debug", ConfigVal.bool true)]).1 rfl

/-- C5: when the IsInNY feature is requested, the derived column holds,
per row, true iff the uppercased (sentinel-normalized) state value equals
exactly "NY"; "ny" gives true, "NJ" and "CA" give false, and a missing
state gives the boolean false rather than a fault or a missing value. -/
theorem C5_is_in_ny (feats : List String) (df df' : Table) (col : List Cell)
    (hmem : "IsInNY" ∈ feats)
    (h : extract_features feats df = some df')
    (hcol : df.getCol? "state" = some col) :
    df'.getCol? "IsInNY" = some ((col.map replaceCell).map isInNYCell)
    ∧ (∀ s : String, isInNYCell (some (Value.str s))
        = some (Value.bool (pyUpper s = "NY")))
    ∧ isInNYCell (some (Value.str "ny")) = some (Value.bool true)
    ∧ isInNYCell (some (Value.str "NJ")) = some (Value.bool false)
    ∧ isInNYCell (some (Value.str "CA")) = some (Value.bool false)
    ∧ isInNYCell none = some (Value.bool false) := by
  unfold extract_features at h
  rcases deriveSteps_isInNY_col feats df.replaceAll df' h
    (List.elem_eq_true_of_mem hmem) with ⟨colX, hcolX, hval⟩
  rw [getCol?_replaceAll, hcol] at hcolX
  simp only [Option.map_some'] at hcolX
  cases hcolX
  exact ⟨hval, fun s => rfl, by decide, by decide, by decide, rfl⟩

/-- Witness for C5 at a concrete one-row table with lowercase state. -/
theorem C5_is_in_ny_witness :
    (⟨[("state", [some (Value.str "ny")]),
       ("IsInNY", [some (Value.bool true)])]⟩ : Table).getCol? "IsInNY"
      = some (([some (Value.str "ny")].map replaceCell).map isInNYCell) :=
  (C5_is_in_ny ["IsInNY"] ⟨[("state", [some (Value.str "ny")])]⟩
    ⟨[("state", [some (Value.str "ny")]),
      ("IsInNY", [some (Value.bool true)])]⟩
    [some (Value.str "ny")] (by decide) (by decide) (by decide)).1

/-- C6: requested feature names outside the fixed five are silently
ignored: the result depends only on the requested names restricted to the
five, and when none of the five is requested the run succeeds and only the
sentinel replacement happens — no fault, no column added. -/
theorem C6_unknown_features_ignored (feats : List String) (df : Table) :
    extract_features feats df
      = extract_features
          (feats.filter (fun n => fiveFeatureNames.contains n)) df
    ∧ ((∀ n ∈ fiveFeatureNames, n ∉ feats) →
        extract_features feats df = some df.replaceAll) := by
  constructor
  · unfold extract_features
    apply deriveSteps_congr
    intro n hn
    exact (contains_filter_of_pred feats _ n
      (List.elem_eq_true_of_mem hn)).symm
  · intro hnone
    unfold extract_features
    apply deriveSteps_none
    intro n hn
    cases hc : feats.contains n with
    | false => rfl
    | true => exact absurd (List.mem_of_elem_eq_true hc) (hnone n hn)

/-- Witness for C6: a run requesting only an unknown feature succeeds and
adds nothing beyond sentinel replacement. -/
theorem C6_unknown_features_ignored_witness :
    extract_features ["Bogus"] (⟨[("x", [some (Value.str "a")])]⟩ : Table)
      = some (⟨[("x", [some (Value.str "a")])]⟩ : Table).replaceAll :=
  (C6_unknown_features_ignored ["Bogus"]
    ⟨[("x", [some (Value.str "a")])]⟩).2 (by decide)

/-- C7: a source file that parses to no data at all makes `load_csv` fail
with the ValueError-style message wrapping the empty-data condition,
never returning a table. -/
theorem C7_empty_input_value_error (content : String)
    (field_names : List String) (m : String)
    (h : read_csv content field_names
      = Except.error (PdError.emptyDataError m)) :
    load_csv content field_names
      = Except.error ("Error reading CSV file: " ++ m)
    ∧ ∀ df : Table, load_csv content field_names ≠ Except.ok df := by
  constructor
  · unfold load_csv
    rw [h]
  · intro df hdf
    unfold load_csv at hdf
    rw [h] at hdf
    cases hdf

/-- Witness for C7: the entirely empty input fails with the wrapped
message. -/
theorem C7_empty_input_value_error_witness :
    load_csv "" ["phone"]
      = Except.error "Error reading CSV file: No columns to parse from file" :=
  (C7_empty_input_value_error "" ["phone"]
    "No columns to parse from file" rfl).1

/-- C9: the derived HasPhone and IsInNY columns are total booleans: every
cell is a boolean value, and a missing source cell yields exactly false,
not a missing value. -/
theorem C9_bool_columns_total (feats : List String) (df df' : Table)
    (h : extract_features feats df = some df') :
    (feats.contains "HasPhone" = true →
      ∃ col, df'.getCol? "HasPhone" = some col ∧
        ∀ c ∈ col, ∃ b : Bool, c = some (Value.bool b))
    ∧ (feats.contains "IsInNY" = true →
      ∃ col, df'.getCol? "IsInNY" = some col ∧
        ∀ c ∈ col, ∃ b : Bool, c = some (Value.bool b))
    ∧ hasPhoneCell none = some (Value.bool false)
    ∧ isInNYCell none = some (Value.bool false) := by
  unfold extract_features at h
  refine ⟨?_, ?_, rfl, rfl⟩
  · intro hc
    rcases deriveSteps_hasPhone_col feats df.replaceAll df' h hc with
      ⟨col, _, hval⟩
    refine ⟨col.map hasPhoneCell, hval, ?_⟩
    intro c hcmem
    rcases List.mem_map.mp hcmem with ⟨c0, _, rfl⟩
    exact ⟨c0.isSome, rfl⟩
  · intro hc
    rcases deriveSteps_isInNY_col feats df.replaceAll df' h hc with
      ⟨col, _, hval⟩
    refine ⟨col.map isInNYCell, hval, ?_⟩
    intro c hcmem
    rcases List.mem_map.mp hcmem with ⟨c0, _, rfl⟩
    rcases c0 with _ | v
    · exact ⟨false, rfl⟩
    · rcases v with s | n | b
      · exact ⟨_, rfl⟩
      · exact ⟨false, rfl⟩
      · exact ⟨false, rfl⟩

/-- Witness for C9: a null phone row yields a boolean HasPhone column. -/
theorem C9_bool_columns_total_witness :
    ∃ col, (⟨[("phone", [none]),
        ("HasPhone", [some (Value.bool false)])]⟩ : Table).getCol? "HasPhone"
        = some col ∧
      ∀ c ∈ col, ∃ b : Bool, c = some (Value.bool b) :=
  (C9_bool_columns_total ["HasPhone"] ⟨[("phone", [none])]⟩
    ⟨[("phone", [none]), ("HasPhone", [some (Value.bool false)])]⟩
    (by decide)).1 (by decide)

/-- C10: with an empty requested-features list the run is not the
identity: no column is added, but the sentinel replacement still maps
every "nan"/"NULL" cell of every column to missing. -/
theorem C10_empty_features_not_identity :
    (∀ df : Table, extract_features [] df = some df.replaceAll)
    ∧ extract_features []
        (⟨[("x", [some (Value.str "nan"), some (Value.str "NULL"),
          some (Value.str "ok")])]⟩ : Table)
      = some ⟨[("x", [none, none, some (Value.str "ok")])]⟩
    ∧ extract_features [] (⟨[("x", [some (Value.str "nan")])]⟩ : Table)
      ≠ some (⟨[("x", [some (Value.str "nan")])]⟩ : Table) := by
  refine ⟨fun df => ?_, by decide, by decide⟩
  unfold extract_features
  exact deriveSteps_none [] df.replaceAll (by decide)

/-- C8: running `extract_features` again, with the same requested
features, on an already-derived table succeeds and re-computes identical
values for every requested one of the five derived columns. -/
theorem C8_derive_idempotent (feats : List String) (df df' : Table)
    (h : extract_features feats df = some df') :
    ∃ df'', extract_features feats df' = some df'' ∧
      ∀ n ∈ fiveFeatureNames, n ∈ feats →
        df''.getCol? n = df'.getCol? n := by
  unfold extract_features at h ⊢
  have hsrc : ∀ src : String, src ∉ fiveFeatureNames →
      df'.replaceAll.getCol? src = df.replaceAll.getCol? src := by
    intro src hs
    rw [getCol?_replaceAll,
      deriveSteps_getCol_other feats df.replaceAll df' h src hs,
      getCol?_replaceAll]
    cases df.getCol? src with
    | none => rfl
    | some colD =>
      simp only [Option.map_some']
      rw [map_replaceCell_idem]
  have hp : feats.contains "HasPhone" = true →
      (df'.replaceAll.getCol? "phone").isSome = true := by
    intro hc
    rcases deriveSteps_hasPhone_col feats df.replaceAll df' h hc with
      ⟨col, hcol, _⟩
    rw [hsrc "phone" (by decide), hcol]
    rfl
  have he : feats.contains "EmailDomain" = true →
      (df'.replaceAll.getCol? "email").isSome = true := by
    intro hc
    rcases deriveSteps_emailDomain_col feats df.replaceAll df' h hc with
      ⟨col, hcol, _⟩
    rw [hsrc "email" (by decide), hcol]
    rfl
  have hf : feats.contains "FirstNameLength" = true →
      (df'.replaceAll.getCol? "first_name").isSome = true := by
    intro hc
    rcases deriveSteps_firstNameLength_col feats df.replaceAll df' h hc with
      ⟨col, hcol, _⟩
    rw [hsrc "first_name" (by decide), hcol]
    rfl
  have hl : feats.contains "LastNameLength" = true →
      (df'.replaceAll.getCol? "last_name").isSome = true := by
    intro hc
    rcases deriveSteps_lastNameLength_col feats df.replaceAll df' h hc with
      ⟨col, hcol, _⟩
    rw [hsrc "last_name" (by decide), hcol]
    rfl
  have hy : feats.contains "IsInNY" = true →
      (df'.replaceAll.getCol? "state").isSome = true := by
    intro hc
    rcases deriveSteps_isInNY_col feats df.replaceAll df' h hc with
      ⟨col, hcol, _⟩
    rw [hsrc "state" (by decide), hcol]
    rfl
  rcases deriveSteps_total feats df'.replaceAll hp he hf hl hy with
    ⟨df'', hdf''⟩
  refine ⟨df'', hdf'', ?_⟩
  intro n hn hmem
  have hc := List.elem_eq_true_of_mem hmem
  simp only [fiveFeatureNames, List.mem_cons, List.not_mem_nil,
    or_false] at hn
  rcases hn with rfl | rfl | rfl | rfl | rfl
  · rcases deriveSteps_hasPhone_col feats df.replaceAll df' h hc with
      ⟨col1, hcol1, hval1⟩
    rcases deriveSteps_hasPhone_col feats df'.replaceAll df'' hdf'' hc with
      ⟨col2, hcol2, hval2⟩
    rw [hsrc "phone" (by decide), hcol1] at hcol2
    cases hcol2
    rw [hval1, hval2]
  · rcases deriveSteps_emailDomain_col feats df.replaceAll df' h hc with
      ⟨col1, hcol1, hval1⟩
    rcases deriveSteps_emailDomain_col feats df'.replaceAll df'' hdf'' hc with
      ⟨col2, hcol2, hval2⟩
    rw [hsrc "email" (by decide), hcol1] at hcol2
    cases hcol2
    rw [hval1, hval2]
  · rcases deriveSteps_firstNameLength_col feats df.replaceAll df' h hc with
      ⟨col1, hcol1, hval1⟩
    rcases deriveSteps_firstNameLength_col feats df'.replaceAll df''
      hdf'' hc with ⟨col2, hcol2, hval2⟩
    rw [hsrc "first_name" (by decide), hcol1] at hcol2
    cases hcol2
    rw [hval1, hval2]
  · rcases deriveSteps_lastNameLength_col feats df.replaceAll df' h hc with
      ⟨col1, hcol1, hval1⟩
    rcases deriveSteps_lastNameLength_col feats df'.replaceAll df''
      hdf'' hc with ⟨col2, hcol2, hval2⟩
    rw [hsrc "last_name" (by decide), hcol1] at hcol2
    cases hcol2
    rw [hval1, hval2]
  · rcases deriveSteps_isInNY_col feats df.replaceAll df' h hc with
      ⟨col1, hcol1, hval1⟩
    rcases deriveSteps_isInNY_col feats df'.replaceAll df'' hdf'' hc with
      ⟨col2, hcol2, hval2⟩
    rw [hsrc "state" (by decide), hcol1] at hcol2
    cases hcol2
    rw [hval1, hval2]

/-- Witness for C8: re-deriving HasPhone on an already-derived table
re-computes the same column. -/
theorem C8_derive_idempotent_witness :
    ∃ df'', extract_features ["HasPhone"]
        (⟨[("phone", [none]),
           ("HasPhone", [some (Value.bool false)])]⟩ : Table)
        = some df'' ∧
      ∀ n ∈ fiveFeatureNames, n ∈ (["HasPhone"] : List String) →
        df''.getCol? n
          = (⟨[("phone", [none]),
              ("HasPhone", [some (Value.bool false)])]⟩ : Table).getCol? n :=
  C8_derive_idempotent ["HasPhone"] ⟨[("phone", [none])]⟩
    ⟨[("phone", [none]), ("HasPhone", [some (Value.bool false)])]⟩
    (by decide)

end ExtractFeature
